import Mathlib

/-!
Verification of the DMX-Visualizer OutputEngine core.

A shallow embedding of the C++ sources under src/OutputEngine:
  output_sink.h     - the per-output transition / crop / edge-blend state machine,
  switcher_frame.h  - FrameRingBuffer and TexturePool,
  output_ndi.h      - the NDI output sink (only declarations are in the header;
                      the bounded send queue is modelled from the spec).

Machine floats are embedded as exact rationals.  The single spot where the C++
arithmetic is not total - advanceTransition divides by transition_duration_frames_,
which startTBarTransition sets to 0 - is tracked by the explicit predicate
advanceDividesByZero; theorems about advanceTransition carry the hypothesis
that the duration is positive, which is exactly the region where the rational
model and the IEEE code agree.
-/

namespace RocKontrol

/-- Output source type, from output_sink.h: determines what an output displays. -/
inductive OutputSourceType where
  | None
  | Screen
  | DirectInput
  | LegacyBus
deriving DecidableEq

/-- Transition type for per-output transitions, from output_sink.h. -/
inductive OutputTransitionType where
  | Cut
  | Dissolve
  | Wipe
  | Dip
deriving DecidableEq

/-- Per-output crop region, from output_sink.h (normalized coordinates, defaults 0,0,1,1). -/
structure CropRegion where
  x : ℚ := 0
  y : ℚ := 0
  w : ℚ := 1
  h : ℚ := 1
deriving DecidableEq

/-- Per-output edge blending parameters, from output_sink.h, with the C++ default
member initializers. -/
structure EdgeBlendParams where
  featherLeft : ℚ := 0
  featherRight : ℚ := 0
  featherTop : ℚ := 0
  featherBottom : ℚ := 0
  blendGamma : ℚ := 2.2
  blendPower : ℚ := 1
  blackLevel : ℚ := 0
  gammaR : ℚ := 1
  gammaG : ℚ := 1
  gammaB : ℚ := 1
  warpTopLeftX : ℚ := 0
  warpTopLeftY : ℚ := 0
  warpTopMiddleX : ℚ := 0
  warpTopMiddleY : ℚ := 0
  warpTopRightX : ℚ := 0
  warpTopRightY : ℚ := 0
  warpMiddleLeftX : ℚ := 0
  warpMiddleLeftY : ℚ := 0
  warpMiddleRightX : ℚ := 0
  warpMiddleRightY : ℚ := 0
  warpBottomLeftX : ℚ := 0
  warpBottomLeftY : ℚ := 0
  warpBottomMiddleX : ℚ := 0
  warpBottomMiddleY : ℚ := 0
  warpBottomRightX : ℚ := 0
  warpBottomRightY : ℚ := 0
  warpCurvature : ℚ := 0
  lensK1 : ℚ := 0
  lensK2 : ℚ := 0
  lensCenterX : ℚ := 0.5
  lensCenterY : ℚ := 0.5
  activeCorner : Int := 0
deriving DecidableEq

/-- Builder for the ten-argument aggregate initialization of EdgeBlendParams used by
setPendingEdgeBlend, startTransitionWithCropAndBlend and startTBarTransitionWithCropAndBlend;
the remaining members keep their C++ default member initializers. -/
def mkEdgeBlend10 (fl fr ft fb g pw bl gr gg gb : ℚ) : EdgeBlendParams :=
  { featherLeft := fl, featherRight := fr, featherTop := ft, featherBottom := fb,
    blendGamma := g, blendPower := pw, blackLevel := bl,
    gammaR := gr, gammaG := gg, gammaB := gb }

/-- Mutable state of an OutputSink, from output_sink.h, with the C++ member
default initializers. -/
structure OutputSink where
  output_id : Int := -1
  source_type : OutputSourceType := OutputSourceType.LegacyBus
  screen_index : Int := -1
  direct_input_index : Int := -1
  current_input : Int := -1
  pending_input : Int := -1
  transition_in_progress : Bool := false
  transition_progress : ℚ := 0
  transition_duration_frames : ℚ := 30
  transition_type : OutputTransitionType := OutputTransitionType.Dissolve
  current_crop : CropRegion := {}
  pending_crop : CropRegion := {}
  current_edge_blend : EdgeBlendParams := {}
  pending_edge_blend : EdgeBlendParams := {}
deriving DecidableEq

/-- Freshly constructed OutputSink (all fields at their member initializers). -/
def initOutputSink : OutputSink := {}

namespace OutputSink

/-- setPendingCrop from output_sink.h. -/
def setPendingCrop (s : OutputSink) (x y w h : ℚ) : OutputSink :=
  { s with pending_crop := { x := x, y := y, w := w, h := h } }

/-- setCrop from output_sink.h (writes the current crop directly). -/
def setCrop (s : OutputSink) (x y w h : ℚ) : OutputSink :=
  { s with current_crop := { x := x, y := y, w := w, h := h } }

/-- setPendingEdgeBlend from output_sink.h. -/
def setPendingEdgeBlend (s : OutputSink) (fl fr ft fb g pw bl gr gg gb : ℚ) : OutputSink :=
  { s with pending_edge_blend := mkEdgeBlend10 fl fr ft fb g pw bl gr gg gb }

/-- startTransition from output_sink.h: a Cut or a non-positive duration commits the
input immediately (note: the current crop and edge blend are not touched in this
overload); otherwise the transition starts with progress 0. -/
def startTransition (s : OutputSink) (toInput : Int) (ty : OutputTransitionType)
    (durationFrames : ℚ) : OutputSink :=
  if ty = OutputTransitionType.Cut ∨ durationFrames ≤ 0 then
    { s with current_input := toInput,
             direct_input_index := toInput,
             source_type := OutputSourceType.DirectInput,
             pending_input := -1,
             transition_in_progress := false,
             transition_progress := 0 }
  else
    { s with pending_input := toInput,
             transition_type := ty,
             transition_duration_frames := durationFrames,
             transition_in_progress := true,
             transition_progress := 0 }

/-- startTransitionWithCrop from output_sink.h. -/
def startTransitionWithCrop (s : OutputSink) (toInput : Int) (ty : OutputTransitionType)
    (durationFrames cx cy cw ch : ℚ) : OutputSink :=
  let s := { s with pending_crop := { x := cx, y := cy, w := cw, h := ch } }
  if ty = OutputTransitionType.Cut ∨ durationFrames ≤ 0 then
    { s with current_input := toInput,
             direct_input_index := toInput,
             source_type := OutputSourceType.DirectInput,
             current_crop := s.pending_crop,
             pending_input := -1,
             transition_in_progress := false,
             transition_progress := 0 }
  else
    { s with pending_input := toInput,
             transition_type := ty,
             transition_duration_frames := durationFrames,
             transition_in_progress := true,
             transition_progress := 0 }

/-- startTransitionWithCropAndBlend from output_sink.h. -/
def startTransitionWithCropAndBlend (s : OutputSink) (toInput : Int)
    (ty : OutputTransitionType) (durationFrames cx cy cw ch fl fr ft fb g pw bl gr gg gb : ℚ) :
    OutputSink :=
  let s := { s with pending_crop := { x := cx, y := cy, w := cw, h := ch },
                    pending_edge_blend := mkEdgeBlend10 fl fr ft fb g pw bl gr gg gb }
  if ty = OutputTransitionType.Cut ∨ durationFrames ≤ 0 then
    { s with current_input := toInput,
             direct_input_index := toInput,
             source_type := OutputSourceType.DirectInput,
             current_crop := s.pending_crop,
             current_edge_blend := s.pending_edge_blend,
             pending_input := -1,
             transition_in_progress := false,
             transition_progress := 0 }
  else
    { s with pending_input := toInput,
             transition_type := ty,
             transition_duration_frames := durationFrames,
             transition_in_progress := true,
             transition_progress := 0 }

/-- advanceTransition from output_sink.h.  The C++ computes
step = 1.0f / transition_duration_frames_ with no guard; in this rational model
division by zero is the degenerate total value, and the predicate
advanceDividesByZero below marks exactly the states where the C++ divides by zero. -/
def advanceTransition (s : OutputSink) : OutputSink × Bool :=
  if !s.transition_in_progress then (s, false)
  else
    let step : ℚ := 1 / s.transition_duration_frames
    let progress := s.transition_progress + step
    if progress ≥ 1 then
      ({ s with current_input := s.pending_input,
                direct_input_index := s.pending_input,
                source_type := OutputSourceType.DirectInput,
                current_crop := s.pending_crop,
                current_edge_blend := s.pending_edge_blend,
                pending_input := -1,
                transition_in_progress := false,
                transition_progress := 0 }, true)
    else
      ({ s with transition_progress := progress }, false)

/-- States in which the C++ advanceTransition evaluates 1.0f / 0.0f, an unguarded
division by zero. -/
def advanceDividesByZero (s : OutputSink) : Prop :=
  s.transition_in_progress = true ∧ s.transition_duration_frames = 0

/-- cancelTransition from output_sink.h: clears only the pending input and the
in-progress flag and progress; the pending crop and edge blend fields are not reset. -/
def cancelTransition (s : OutputSink) : OutputSink :=
  { s with pending_input := -1,
           transition_in_progress := false,
           transition_progress := 0 }

/-- setTransitionProgress from output_sink.h: T-bar control, clamps to the unit
interval and completes the transition when the clamped progress reaches 1. -/
def setTransitionProgress (s : OutputSink) (progress : ℚ) : OutputSink × Bool :=
  if !s.transition_in_progress then (s, false)
  else
    let p := max 0 (min 1 progress)
    if p ≥ 1 then
      ({ s with current_input := s.pending_input,
                direct_input_index := s.pending_input,
                source_type := OutputSourceType.DirectInput,
                current_crop := s.pending_crop,
                current_edge_blend := s.pending_edge_blend,
                pending_input := -1,
                transition_in_progress := false,
                transition_progress := 0 }, true)
    else
      ({ s with transition_progress := p }, true)

/-- startTBarTransition from output_sink.h: begins a manually controlled transition
with duration 0. -/
def startTBarTransition (s : OutputSink) (toInput : Int) (ty : OutputTransitionType) :
    OutputSink :=
  { s with pending_input := toInput,
           transition_type := ty,
           transition_duration_frames := 0,
           transition_in_progress := true,
           transition_progress := 0 }

/-- startTBarTransitionWithCropAndBlend from output_sink.h. -/
def startTBarTransitionWithCropAndBlend (s : OutputSink) (toInput : Int)
    (ty : OutputTransitionType) (cx cy cw ch fl fr ft fb g pw bl gr gg gb : ℚ) : OutputSink :=
  { s with pending_input := toInput,
           pending_crop := { x := cx, y := cy, w := cw, h := ch },
           pending_edge_blend := mkEdgeBlend10 fl fr ft fb g pw bl gr gg gb,
           transition_type := ty,
           transition_duration_frames := 0,
           transition_in_progress := true,
           transition_progress := 0 }

/-- State produced by the commit block shared (textually identical assignment lists)
by advanceTransition and setTransitionProgress. -/
def committedState (s : OutputSink) : OutputSink :=
  { s with current_input := s.pending_input,
           direct_input_index := s.pending_input,
           source_type := OutputSourceType.DirectInput,
           current_crop := s.pending_crop,
           current_edge_blend := s.pending_edge_blend,
           pending_input := -1,
           transition_in_progress := false,
           transition_progress := 0 }

end OutputSink

/-- Triple of current values read by the render path. -/
def currentTriple (s : OutputSink) : Int × CropRegion × EdgeBlendParams :=
  (s.current_input, s.current_crop, s.current_edge_blend)

/-- Triple of pending values staged for the next commit. -/
def pendingTriple (s : OutputSink) : Int × CropRegion × EdgeBlendParams :=
  (s.pending_input, s.pending_crop, s.pending_edge_blend)

/-- Ring buffer for frame storage, from switcher_frame.h.  A stored SwitcherFrame is
abstracted to its frame_number (a natural number); the empty slots of the backing
vector hold the default 0, matching the zero frame_number of a reset SwitcherFrame. -/
structure FrameRingBuffer where
  capacity : ℕ
  frames : List ℕ
  write_idx : ℕ
  read_idx : ℕ
  count : ℕ
deriving DecidableEq

namespace FrameRingBuffer

/-- FrameRingBuffer constructor from switcher_frame.h: capacity slots, all indices 0. -/
def mkBuffer (capacity : ℕ) : FrameRingBuffer :=
  { capacity := capacity, frames := List.replicate capacity 0,
    write_idx := 0, read_idx := 0, count := 0 }

/-- push from switcher_frame.h: write at write_idx, advance it; grow count when not
full, otherwise advance read_idx (dropping the oldest entry). -/
def push (rb : FrameRingBuffer) (f : ℕ) : FrameRingBuffer :=
  let frames := rb.frames.set rb.write_idx f
  let w := (rb.write_idx + 1) % rb.capacity
  if rb.count < rb.capacity then
    { rb with frames := frames, write_idx := w, count := rb.count + 1 }
  else
    { rb with frames := frames, write_idx := w, read_idx := (rb.read_idx + 1) % rb.capacity }

/-- peekLatest from switcher_frame.h. -/
def peekLatest (rb : FrameRingBuffer) : Option ℕ :=
  if rb.count = 0 then none
  else some (rb.frames.getD ((rb.write_idx + rb.capacity - 1) % rb.capacity) 0)

/-- pop from switcher_frame.h: removes and returns the oldest entry. -/
def pop (rb : FrameRingBuffer) : Option (ℕ × FrameRingBuffer) :=
  if rb.count = 0 then none
  else some (rb.frames.getD rb.read_idx 0,
    { rb with read_idx := (rb.read_idx + 1) % rb.capacity, count := rb.count - 1 })

/-- size from switcher_frame.h. -/
def size (rb : FrameRingBuffer) : ℕ := rb.count

/-- Sequence of push calls, left to right. -/
def pushAll (rb : FrameRingBuffer) (l : List ℕ) : FrameRingBuffer :=
  l.foldl push rb

/-- Successive pop calls until the buffer reports empty, fuelled by the count. -/
def drainAux : ℕ → FrameRingBuffer → List ℕ
  | 0, _ => []
  | n + 1, rb =>
    match rb.pop with
    | none => []
    | some (f, rb') => f :: drainAux n rb'

/-- List of frames returned by successive pop calls until empty. -/
def drain (rb : FrameRingBuffer) : List ℕ :=
  drainAux rb.count rb

/-- Structural invariant of the ring buffer: the backing vector has exactly capacity
slots, the count never exceeds the capacity, the read index is in range and the
write index is the read index advanced by count, modulo capacity. -/
def Inv (rb : FrameRingBuffer) : Prop :=
  rb.frames.length = rb.capacity ∧ rb.count ≤ rb.capacity ∧
  rb.read_idx < rb.capacity ∧ rb.write_idx = (rb.read_idx + rb.count) % rb.capacity ∧
  0 < rb.capacity

/-- Abstraction of the ring buffer to the queue it represents: count entries,
oldest first, starting at the read index. -/
def absList (rb : FrameRingBuffer) : List ℕ :=
  (List.range rb.count).map (fun i => rb.frames.getD ((rb.read_idx + i) % rb.capacity) 0)

end FrameRingBuffer

/-- Frames pushed in the scenarios of the spec: frame numbers 1 up to n. -/
def frameSeq (n : ℕ) : List ℕ :=
  (List.range n).map (fun i => i + 1)

/-- Metal texture abstracted to its dimensions plus an identity tag that stands for
the object identity of the id MTLTexture handle. -/
structure MTLTexture where
  width : ℕ
  height : ℕ
  tid : ℕ
deriving DecidableEq

/-- Texture pool from switcher_frame.h: configured dimensions, the vector of
available textures, and a counter standing for the Metal device handing out fresh
texture objects (each newly allocated texture gets a fresh tag). -/
structure TexturePool where
  width : ℕ
  height : ℕ
  available : List MTLTexture
  next_tid : ℕ
deriving DecidableEq

namespace TexturePool

/-- TexturePool constructor from switcher_frame.h: pre-allocates poolSize textures
at the configured dimensions. -/
def mkPool (width height poolSize : ℕ) : TexturePool :=
  { width := width, height := height,
    available := (List.range poolSize).map (fun i => { width := width, height := height, tid := i }),
    next_tid := poolSize }

/-- acquire from switcher_frame.h: take the back of the available vector, or
allocate a new texture at the configured dimensions when the pool is exhausted.
The Bool records whether a new texture was allocated. -/
def acquire (p : TexturePool) : MTLTexture × TexturePool × Bool :=
  match p.available.getLast? with
  | some tex => (tex, { p with available := p.available.dropLast }, false)
  | none =>
    ({ width := p.width, height := p.height, tid := p.next_tid },
     { p with next_tid := p.next_tid + 1 }, true)

/-- release from switcher_frame.h: return the texture to the pool only if it has the
configured dimensions, otherwise leave the pool unchanged (the texture is abandoned). -/
def release (p : TexturePool) (tex : MTLTexture) : TexturePool :=
  if tex.width = p.width ∧ tex.height = p.height then
    { p with available := p.available ++ [tex] }
  else p

/-- resize from switcher_frame.h: no-op when the dimensions are unchanged, otherwise
clear the available vector and update the configuration. -/
def resize (p : TexturePool) (width height : ℕ) : TexturePool :=
  if width = p.width ∧ height = p.height then p
  else { p with available := [], width := width, height := height }

/-- Pool invariant: every available texture has the configured dimensions. -/
def PoolInv (p : TexturePool) : Prop :=
  ∀ tex ∈ p.available, tex.width = p.width ∧ tex.height = p.height

end TexturePool

/-- Modelled from the spec: the NDI output sink state observable through the
statistics counters and the bounded send queue.  The bodies of
NDIOutput::pushFrame, NDIOutput::pushPixelData and NDIOutput::sendLoop are not in
src (output_ndi.h declares them only), so the queue discipline follows the spec:
a bounded queue of configurable depth (default 5 in NDIOutputConfig), a push when
full is rejected - the new frame is dropped and counted - and the send task pops
the oldest entry and increments the sent counter.  A queued frame is abstracted to
its frame number. -/
structure NDIOutput where
  queue_depth : ℕ
  pixel_queue : List ℕ
  frames_sent : ℕ
  frames_dropped : ℕ
deriving DecidableEq

namespace NDIOutput

/-- Modelled from the spec: a freshly configured NDI sink with queue depth q
(NDIOutputConfig async_queue_size) and zeroed statistics. -/
def mkNDI (q : ℕ) : NDIOutput :=
  { queue_depth := q, pixel_queue := [], frames_sent := 0, frames_dropped := 0 }

/-- Modelled from the spec: pushPixelData enqueues the frame when the bounded queue
has room; a push when full is rejected, the new frame is dropped and counted, and
the queued entries are left untouched. -/
def pushPixelData (s : NDIOutput) (f : ℕ) : NDIOutput × Bool :=
  if s.queue_depth ≤ s.pixel_queue.length then
    ({ s with frames_dropped := s.frames_dropped + 1 }, false)
  else
    ({ s with pixel_queue := s.pixel_queue ++ [f] }, true)

/-- Modelled from the spec: one iteration of the sendLoop when the sender completes
a send - pop the oldest queued frame and increment the sent counter. -/
def sendOne (s : NDIOutput) : NDIOutput :=
  match s.pixel_queue with
  | [] => s
  | _ :: rest => { s with pixel_queue := rest, frames_sent := s.frames_sent + 1 }

end NDIOutput

/-- Events offered to the NDI sink: a frame push, or a completed send by the
background task.  A stalled sender corresponds to a run without send events. -/
inductive NDIOp where
  | push : ℕ → NDIOp
  | send : NDIOp

/-- Apply one NDI event. -/
def applyNDI (s : NDIOutput) : NDIOp → NDIOutput
  | NDIOp.push f => (s.pushPixelData f).1
  | NDIOp.send => s.sendOne

/-- Run a sequence of NDI events. -/
def runNDI (s : NDIOutput) (ops : List NDIOp) : NDIOutput :=
  ops.foldl applyNDI s

/-- Number of frames offered to the sink in a sequence of events. -/
def offeredCount : List NDIOp → ℕ
  | [] => 0
  | NDIOp.push _ :: ops => offeredCount ops + 1
  | NDIOp.send :: ops => offeredCount ops

/-- Transition-control calls interleaved while a transition is running:
the per-tick advanceTransition and the T-bar setTransitionProgress. -/
inductive TransOp where
  | advance : TransOp
  | setProgress : ℚ → TransOp

/-- Apply one transition-control call, discarding the returned Bool. -/
def applyTrans (s : OutputSink) : TransOp → OutputSink
  | TransOp.advance => s.advanceTransition.1
  | TransOp.setProgress p => (s.setTransitionProgress p).1

/-- Decides whether this call makes the transition progress reach 1 or more, i.e.
whether the call commits the pending values. -/
def commits (s : OutputSink) : TransOp → Bool
  | TransOp.advance =>
      s.transition_in_progress &&
        decide (s.transition_progress + 1 / s.transition_duration_frames ≥ 1)
  | TransOp.setProgress p =>
      s.transition_in_progress && decide (max 0 (min 1 p) ≥ 1)

/-- Run a sequence of transition-control calls. -/
def runTrans (s : OutputSink) (ops : List TransOp) : OutputSink :=
  ops.foldl applyTrans s

/-- Number of calls in the sequence at which progress reaches 1 or more. -/
def commitCount (s : OutputSink) : List TransOp → ℕ
  | [] => 0
  | op :: ops => (if commits s op then 1 else 0) + commitCount (applyTrans s op) ops

/-- Checks, along the run, that every call either leaves the current
(input, crop, edge-blend) triple exactly unchanged (when it does not commit) or
replaces it, atomically and in that single call, by the pending triple of the state
just before the call (when it commits). -/
def tripleAtomic (s : OutputSink) : List TransOp → Bool
  | [] => true
  | op :: ops =>
    (if commits s op then decide (currentTriple (applyTrans s op) = pendingTriple s)
     else decide (currentTriple (applyTrans s op) = currentTriple s)) &&
    tripleAtomic (applyTrans s op) ops

/-- Every transition operation of the OutputSink state machine, for invariant
preservation statements. -/
inductive SinkOp where
  | start : Int → OutputTransitionType → ℚ → SinkOp
  | startWithCrop : Int → OutputTransitionType → ℚ → ℚ → ℚ → ℚ → ℚ → SinkOp
  | startWithCropAndBlend : Int → OutputTransitionType → ℚ → ℚ → ℚ → ℚ → ℚ → ℚ → ℚ → ℚ → ℚ →
      ℚ → ℚ → ℚ → ℚ → ℚ → ℚ → SinkOp
  | startTBar : Int → OutputTransitionType → SinkOp
  | startTBarWithCropAndBlend : Int → OutputTransitionType → ℚ → ℚ → ℚ → ℚ → ℚ → ℚ → ℚ → ℚ →
      ℚ → ℚ → ℚ → ℚ → ℚ → ℚ → SinkOp
  | advance : SinkOp
  | setProgress : ℚ → SinkOp
  | cancel : SinkOp

/-- Apply one transition operation to the sink state. -/
def applySinkOp (s : OutputSink) : SinkOp → OutputSink
  | SinkOp.start t ty d => s.startTransition t ty d
  | SinkOp.startWithCrop t ty d cx cy cw ch => s.startTransitionWithCrop t ty d cx cy cw ch
  | SinkOp.startWithCropAndBlend t ty d cx cy cw ch fl fr ft fb g pw bl gr gg gb =>
      s.startTransitionWithCropAndBlend t ty d cx cy cw ch fl fr ft fb g pw bl gr gg gb
  | SinkOp.startTBar t ty => s.startTBarTransition t ty
  | SinkOp.startTBarWithCropAndBlend t ty cx cy cw ch fl fr ft fb g pw bl gr gg gb =>
      s.startTBarTransitionWithCropAndBlend t ty cx cy cw ch fl fr ft fb g pw bl gr gg gb
  | SinkOp.advance => s.advanceTransition.1
  | SinkOp.setProgress p => (s.setTransitionProgress p).1
  | SinkOp.cancel => s.cancelTransition

/-- Invariant relating the in-progress flag and the reported progress: an Idle sink
reports progress 0. -/
def progressIdleInv (s : OutputSink) : Prop :=
  s.transition_in_progress = false → s.transition_progress = 0

/-- Sink with a staged pending crop that differs from the current crop. -/
def stagedCropSink : OutputSink := initOutputSink.setPendingCrop 0 0 0 0

/-- Sink with a staged pending crop, in a manually controlled transition. -/
def tbarStagedSink : OutputSink :=
  stagedCropSink.startTBarTransition 2 OutputTransitionType.Dissolve

/-- Sink in a running 10-frame dissolve towards input 2. -/
def dissolveSink : OutputSink :=
  initOutputSink.startTransition 2 OutputTransitionType.Dissolve 10

/-- Sink in a manually controlled (T-bar) transition towards input 2. -/
def tbarSink : OutputSink :=
  initOutputSink.startTBarTransition 2 OutputTransitionType.Dissolve

/-! Theorems. -/

/-- C3: startTBarTransition puts the sink in Transitioning with
transition_duration_frames equal to 0, and advanceTransition on that state evaluates
1.0f / transition_duration_frames_ with no guard - an unguarded division by zero -
instead of the guarded immediate commit the claim requires. -/
theorem C3_tbar_advance_divides_by_zero :
    tbarSink.transition_duration_frames = 0 ∧
    tbarSink.transition_in_progress = true ∧
    tbarSink.advanceDividesByZero := by
  refine ⟨rfl, rfl, rfl, rfl⟩

/-- C2 counterexample: with a pending crop staged that differs from the current crop,
startTransition with type Cut commits the input and returns to Idle but does not
replace the current crop by the pending one, so the claimed conjunction fails at
this input. -/
theorem C2_counterexample :
    ¬ ((stagedCropSink.startTransition 2 OutputTransitionType.Cut 30).current_input = 2 ∧
       (stagedCropSink.startTransition 2 OutputTransitionType.Cut 30).current_crop =
         stagedCropSink.pending_crop ∧
       (stagedCropSink.startTransition 2 OutputTransitionType.Cut 30).current_edge_blend =
         stagedCropSink.pending_edge_blend ∧
       (stagedCropSink.startTransition 2 OutputTransitionType.Cut 30).transition_in_progress =
         false) := by
  intro h
  have hcrop := h.2.1
  revert hcrop
  decide

/-- C2 (amended): a Cut or non-positive duration commits immediately within the same
call and ends Idle in all three overloads, but only the crop- and blend-carrying
overloads replace the current crop (and edge blend); the plain startTransition
replaces the current input only and leaves current crop and edge blend unchanged. -/
theorem C2_cut_commits_immediately (s : OutputSink) (toInput : Int)
    (ty : OutputTransitionType) (d cx cy cw ch fl fr ft fb g pw bl gr gg gb : ℚ)
    (h : ty = OutputTransitionType.Cut ∨ d ≤ 0) :
    ((s.startTransition toInput ty d).current_input = toInput ∧
     (s.startTransition toInput ty d).transition_in_progress = false ∧
     (s.startTransition toInput ty d).transition_progress = 0 ∧
     (s.startTransition toInput ty d).current_crop = s.current_crop ∧
     (s.startTransition toInput ty d).current_edge_blend = s.current_edge_blend) ∧
    ((s.startTransitionWithCrop toInput ty d cx cy cw ch).current_input = toInput ∧
     (s.startTransitionWithCrop toInput ty d cx cy cw ch).transition_in_progress = false ∧
     (s.startTransitionWithCrop toInput ty d cx cy cw ch).current_crop =
       { x := cx, y := cy, w := cw, h := ch } ∧
     (s.startTransitionWithCrop toInput ty d cx cy cw ch).current_edge_blend =
       s.current_edge_blend) ∧
    ((s.startTransitionWithCropAndBlend toInput ty d cx cy cw ch
        fl fr ft fb g pw bl gr gg gb).current_input = toInput ∧
     (s.startTransitionWithCropAndBlend toInput ty d cx cy cw ch
        fl fr ft fb g pw bl gr gg gb).transition_in_progress = false ∧
     (s.startTransitionWithCropAndBlend toInput ty d cx cy cw ch
        fl fr ft fb g pw bl gr gg gb).current_crop = { x := cx, y := cy, w := cw, h := ch } ∧
     (s.startTransitionWithCropAndBlend toInput ty d cx cy cw ch
        fl fr ft fb g pw bl gr gg gb).current_edge_blend =
       mkEdgeBlend10 fl fr ft fb g pw bl gr gg gb) := by
  simp [OutputSink.startTransition, OutputSink.startTransitionWithCrop,
        OutputSink.startTransitionWithCropAndBlend, h]

/-- C2 witness: the amended statement evaluated for a Cut on a fresh sink. -/
theorem C2_witness :
    (initOutputSink.startTransition 2 OutputTransitionType.Cut 30).current_input = 2 ∧
    (initOutputSink.startTransition 2 OutputTransitionType.Cut 30).transition_in_progress =
      false ∧
    (initOutputSink.startTransition 2 OutputTransitionType.Cut 30).current_crop =
      initOutputSink.current_crop :=
  ⟨(C2_cut_commits_immediately initOutputSink 2 OutputTransitionType.Cut 30
      0 0 0 0 0 0 0 0 0 0 0 0 0 0 (Or.inl rfl)).1.1,
   (C2_cut_commits_immediately initOutputSink 2 OutputTransitionType.Cut 30
      0 0 0 0 0 0 0 0 0 0 0 0 0 0 (Or.inl rfl)).1.2.1,
   (C2_cut_commits_immediately initOutputSink 2 OutputTransitionType.Cut 30
      0 0 0 0 0 0 0 0 0 0 0 0 0 0 (Or.inl rfl)).1.2.2.2.1⟩

/-- C6 counterexample: cancelTransition does not discard the staged pending crop -
it survives the cancel verbatim (and differs from the never-staged default), and a
later transition commit applies it to the current crop; so the pending crop and
pending edge blend are retained, not discarded. -/
theorem C6_counterexample :
    tbarStagedSink.cancelTransition.pending_crop = tbarStagedSink.pending_crop ∧
    tbarStagedSink.pending_crop ≠ initOutputSink.pending_crop ∧
    ((tbarStagedSink.cancelTransition.startTransition 3 OutputTransitionType.Dissolve
        10).setTransitionProgress 1).1.current_crop = tbarStagedSink.pending_crop := by
  refine ⟨rfl, ?_, ?_⟩
  · decide
  · rfl

/-- C6 (amended): for every sink in state Transitioning, cancelTransition clears the
pending target input, returns the sink to Idle with progress 0, and leaves every
current value exactly as it was; the pending crop and pending edge blend fields are
left unchanged rather than discarded. -/
theorem C6_cancel_spec (s : OutputSink) (_h : s.transition_in_progress = true) :
    s.cancelTransition =
      { s with pending_input := -1, transition_in_progress := false,
               transition_progress := 0 } := by
  simp [OutputSink.cancelTransition]

/-- C6 witness: the amended cancel behaviour evaluated on a concrete Transitioning
sink. -/
theorem C6_witness :
    tbarStagedSink.cancelTransition =
      { tbarStagedSink with pending_input := -1, transition_in_progress := false,
                            transition_progress := 0 } :=
  C6_cancel_spec tbarStagedSink rfl

/-- C7 counterexample: startTransition with a Cut changes the source assignment of a
fresh (LegacyBus) sink - source_type becomes DirectInput and direct_input_index
becomes the target - refuting the claim that no transition operation changes the
source assignment fields. -/
theorem C7_counterexample :
    ¬ ((initOutputSink.startTransition 2 OutputTransitionType.Cut 30).source_type =
         initOutputSink.source_type ∧
       (initOutputSink.startTransition 2 OutputTransitionType.Cut 30).screen_index =
         initOutputSink.screen_index ∧
       (initOutputSink.startTransition 2 OutputTransitionType.Cut 30).direct_input_index =
         initOutputSink.direct_input_index) := by
  intro h
  exact absurd h.1 (by decide)

/-- C7 (amended): screen_index is never changed by any transition operation, and
cancelTransition, non-committing advanceTransition and setTransitionProgress calls,
the non-cut branch of every member of the startTransition family, the T-bar
starters and calls while Idle leave the whole source assignment unchanged; but the
cut branch of every member of the startTransition family and every transition
commit - whether reached through advanceTransition or setTransitionProgress - set
source_type to DirectInput and direct_input_index to the committed input. -/
theorem C7_assignment_vs_transitions :
    (∀ (s : OutputSink) (op : SinkOp), (applySinkOp s op).screen_index = s.screen_index) ∧
    (∀ s : OutputSink, s.cancelTransition.source_type = s.source_type ∧
       s.cancelTransition.direct_input_index = s.direct_input_index) ∧
    (∀ (s : OutputSink) (p : ℚ), s.transition_in_progress = true → max 0 (min 1 p) < 1 →
       (s.setTransitionProgress p).1.source_type = s.source_type ∧
       (s.setTransitionProgress p).1.direct_input_index = s.direct_input_index) ∧
    (∀ s : OutputSink, s.transition_in_progress = true →
       s.transition_progress + 1 / s.transition_duration_frames < 1 →
       s.advanceTransition.1.source_type = s.source_type ∧
       s.advanceTransition.1.direct_input_index = s.direct_input_index) ∧
    (∀ s : OutputSink, s.transition_in_progress = false →
       s.advanceTransition.1 = s ∧ ∀ p : ℚ, (s.setTransitionProgress p).1 = s) ∧
    (∀ (s : OutputSink) (toInput : Int) (ty : OutputTransitionType) (d : ℚ),
       ¬ (ty = OutputTransitionType.Cut ∨ d ≤ 0) →
       (s.startTransition toInput ty d).source_type = s.source_type ∧
       (s.startTransition toInput ty d).direct_input_index = s.direct_input_index) ∧
    (∀ (s : OutputSink) (toInput : Int) (ty : OutputTransitionType)
       (d cx cy cw ch : ℚ),
       ¬ (ty = OutputTransitionType.Cut ∨ d ≤ 0) →
       (s.startTransitionWithCrop toInput ty d cx cy cw ch).source_type = s.source_type ∧
       (s.startTransitionWithCrop toInput ty d cx cy cw ch).direct_input_index =
         s.direct_input_index) ∧
    (∀ (s : OutputSink) (toInput : Int) (ty : OutputTransitionType)
       (d cx cy cw ch fl fr ft fb g pw bl gr gg gb : ℚ),
       ¬ (ty = OutputTransitionType.Cut ∨ d ≤ 0) →
       (s.startTransitionWithCropAndBlend toInput ty d cx cy cw ch
          fl fr ft fb g pw bl gr gg gb).source_type = s.source_type ∧
       (s.startTransitionWithCropAndBlend toInput ty d cx cy cw ch
          fl fr ft fb g pw bl gr gg gb).direct_input_index = s.direct_input_index) ∧
    (∀ (s : OutputSink) (toInput : Int) (ty : OutputTransitionType),
       (s.startTBarTransition toInput ty).source_type = s.source_type ∧
       (s.startTBarTransition toInput ty).direct_input_index = s.direct_input_index) ∧
    (∀ (s : OutputSink) (toInput : Int) (ty : OutputTransitionType)
       (cx cy cw ch fl fr ft fb g pw bl gr gg gb : ℚ),
       (s.startTBarTransitionWithCropAndBlend toInput ty cx cy cw ch
          fl fr ft fb g pw bl gr gg gb).source_type = s.source_type ∧
       (s.startTBarTransitionWithCropAndBlend toInput ty cx cy cw ch
          fl fr ft fb g pw bl gr gg gb).direct_input_index = s.direct_input_index) ∧
    (∀ (s : OutputSink) (toInput : Int) (ty : OutputTransitionType) (d : ℚ),
       ty = OutputTransitionType.Cut ∨ d ≤ 0 →
       (s.startTransition toInput ty d).source_type = OutputSourceType.DirectInput ∧
       (s.startTransition toInput ty d).direct_input_index = toInput) ∧
    (∀ (s : OutputSink) (toInput : Int) (ty : OutputTransitionType)
       (d cx cy cw ch : ℚ),
       ty = OutputTransitionType.Cut ∨ d ≤ 0 →
       (s.startTransitionWithCrop toInput ty d cx cy cw ch).source_type =
         OutputSourceType.DirectInput ∧
       (s.startTransitionWithCrop toInput ty d cx cy cw ch).direct_input_index = toInput) ∧
    (∀ (s : OutputSink) (toInput : Int) (ty : OutputTransitionType)
       (d cx cy cw ch fl fr ft fb g pw bl gr gg gb : ℚ),
       ty = OutputTransitionType.Cut ∨ d ≤ 0 →
       (s.startTransitionWithCropAndBlend toInput ty d cx cy cw ch
          fl fr ft fb g pw bl gr gg gb).source_type = OutputSourceType.DirectInput ∧
       (s.startTransitionWithCropAndBlend toInput ty d cx cy cw ch
          fl fr ft fb g pw bl gr gg gb).direct_input_index = toInput) ∧
    (∀ s : OutputSink, s.transition_in_progress = true →
       1 ≤ s.transition_progress + 1 / s.transition_duration_frames →
       s.advanceTransition.1.source_type = OutputSourceType.DirectInput ∧
       s.advanceTransition.1.direct_input_index = s.pending_input) ∧
    (∀ (s : OutputSink) (p : ℚ), s.transition_in_progress = true →
       1 ≤ max 0 (min 1 p) →
       (s.setTransitionProgress p).1.source_type = OutputSourceType.DirectInput ∧
       (s.setTransitionProgress p).1.direct_input_index = s.pending_input) := by
  refine ⟨?_, ?_, ?_, ?_, ?_, ?_, ?_, ?_, ?_, ?_, ?_, ?_, ?_, ?_, ?_⟩
  · intro s op
    cases op <;>
      simp [applySinkOp, OutputSink.startTransition, OutputSink.startTransitionWithCrop,
            OutputSink.startTransitionWithCropAndBlend, OutputSink.startTBarTransition,
            OutputSink.startTBarTransitionWithCropAndBlend, OutputSink.advanceTransition,
            OutputSink.setTransitionProgress, OutputSink.cancelTransition] <;>
      split_ifs <;> rfl
  · intro s
    exact ⟨rfl, rfl⟩
  · intro s p h hp
    simp [OutputSink.setTransitionProgress, h, not_le.mpr hp]
  · intro s h hp
    rw [one_div] at hp
    simp [OutputSink.advanceTransition, h, not_le.mpr hp]
  · intro s h
    constructor
    · simp [OutputSink.advanceTransition, h]
    · intro p
      simp [OutputSink.setTransitionProgress, h]
  · intro s toInput ty d h
    simp [OutputSink.startTransition, h]
  · intro s toInput ty d cx cy cw ch h
    simp [OutputSink.startTransitionWithCrop, h]
  · intro s toInput ty d cx cy cw ch fl fr ft fb g pw bl gr gg gb h
    simp [OutputSink.startTransitionWithCropAndBlend, h]
  · intro s toInput ty
    exact ⟨rfl, rfl⟩
  · intro s toInput ty cx cy cw ch fl fr ft fb g pw bl gr gg gb
    exact ⟨rfl, rfl⟩
  · intro s toInput ty d h
    simp [OutputSink.startTransition, h]
  · intro s toInput ty d cx cy cw ch h
    simp [OutputSink.startTransitionWithCrop, h]
  · intro s toInput ty d cx cy cw ch fl fr ft fb g pw bl gr gg gb h
    simp [OutputSink.startTransitionWithCropAndBlend, h]
  · intro s h hp
    rw [one_div] at hp
    simp [OutputSink.advanceTransition, h, hp]
  · intro s p h hp
    simp [OutputSink.setTransitionProgress, h, hp]

/-- C7 witness: the amended statement evaluated at a concrete Cut call and at a
concrete commit reached through setTransitionProgress. -/
theorem C7_witness :
    (initOutputSink.startTransition 2 OutputTransitionType.Cut 30).source_type =
      OutputSourceType.DirectInput ∧
    (initOutputSink.startTransition 2 OutputTransitionType.Cut 30).direct_input_index = 2 ∧
    (applySinkOp initOutputSink (SinkOp.start 2 OutputTransitionType.Cut 30)).screen_index =
      initOutputSink.screen_index ∧
    (tbarSink.setTransitionProgress 2).1.source_type = OutputSourceType.DirectInput ∧
    (tbarSink.setTransitionProgress 2).1.direct_input_index = tbarSink.pending_input :=
  ⟨(C7_assignment_vs_transitions.2.2.2.2.2.2.2.2.2.2.1 initOutputSink 2
      OutputTransitionType.Cut 30 (Or.inl rfl)).1,
   (C7_assignment_vs_transitions.2.2.2.2.2.2.2.2.2.2.1 initOutputSink 2
      OutputTransitionType.Cut 30 (Or.inl rfl)).2,
   C7_assignment_vs_transitions.1 initOutputSink (SinkOp.start 2 OutputTransitionType.Cut 30),
   (C7_assignment_vs_transitions.2.2.2.2.2.2.2.2.2.2.2.2.2.2 tbarSink 2 rfl (by decide)).1,
   (C7_assignment_vs_transitions.2.2.2.2.2.2.2.2.2.2.2.2.2.2 tbarSink 2 rfl (by decide)).2⟩

/-- C8: while Transitioning, setTransitionProgress clamps its argument to the unit
interval, commits at clamped progress 1 producing exactly the state the commit block
of advanceTransition produces, and otherwise just stores the clamped progress; while
Idle, both setTransitionProgress and advanceTransition mutate nothing and return
false. -/
theorem C8_setProgress_spec (s : OutputSink) (p : ℚ) :
    (s.transition_in_progress = true →
       (0 ≤ max 0 (min 1 p) ∧ max 0 (min 1 p) ≤ 1) ∧
       (1 ≤ max 0 (min 1 p) → s.setTransitionProgress p = (s.committedState, true)) ∧
       (max 0 (min 1 p) < 1 →
         s.setTransitionProgress p =
           ({ s with transition_progress := max 0 (min 1 p) }, true)) ∧
       (1 ≤ s.transition_progress + 1 / s.transition_duration_frames →
         s.advanceTransition = (s.committedState, true))) ∧
    (s.transition_in_progress = false →
       s.setTransitionProgress p = (s, false) ∧ s.advanceTransition = (s, false)) := by
  constructor
  · intro h
    refine ⟨⟨le_max_left 0 _, max_le (by norm_num) (min_le_left 1 p)⟩, ?_, ?_, ?_⟩
    · intro hp
      simp [OutputSink.setTransitionProgress, OutputSink.committedState, h, hp]
    · intro hp
      simp [OutputSink.setTransitionProgress, h, not_le.mpr hp]
    · intro hp
      rw [one_div] at hp
      simp [OutputSink.advanceTransition, OutputSink.committedState, h, hp]
  · intro h
    constructor
    · simp [OutputSink.setTransitionProgress, h]
    · simp [OutputSink.advanceTransition, h]

/-- C8 witness: a T-bar push past the end commits the transition on a concrete sink. -/
theorem C8_witness :
    tbarSink.setTransitionProgress 2 = (tbarSink.committedState, true) :=
  ((C8_setProgress_spec tbarSink 2).1 rfl).2.1 (by decide)

/-- C10: the invariant that an Idle sink reports transition progress 0 holds of the
freshly constructed sink and is preserved by every transition operation, so
transitionProgress never reports a stale nonzero value while Idle. -/
theorem C10_progress_idle_invariant :
    progressIdleInv initOutputSink ∧
    ∀ (s : OutputSink) (op : SinkOp),
      progressIdleInv s → progressIdleInv (applySinkOp s op) := by
  constructor
  · intro _
    rfl
  · intro s op h
    cases op <;>
      simp only [applySinkOp, progressIdleInv, OutputSink.startTransition,
        OutputSink.startTransitionWithCrop, OutputSink.startTransitionWithCropAndBlend,
        OutputSink.startTBarTransition, OutputSink.startTBarTransitionWithCropAndBlend,
        OutputSink.advanceTransition, OutputSink.setTransitionProgress,
        OutputSink.cancelTransition] <;>
      (try split_ifs) <;> intro hf <;> simp_all [progressIdleInv]

/-- C10 witness: the invariant evaluated across an advance call on the fresh sink. -/
theorem C10_witness : progressIdleInv (applySinkOp initOutputSink SinkOp.advance) :=
  C10_progress_idle_invariant.2 initOutputSink SinkOp.advance (fun _ => rfl)

/-- Helper: a committing transition-control call replaces the current triple by the
pending triple of the pre-state, atomically within that single call. -/
theorem applyTrans_commit (s : OutputSink) (op : TransOp) (h : commits s op = true) :
    currentTriple (applyTrans s op) = pendingTriple s := by
  cases op with
  | advance =>
    simp only [commits, Bool.and_eq_true, decide_eq_true_eq, ge_iff_le] at h
    obtain ⟨h1, h2⟩ := h
    rw [one_div] at h2
    simp [applyTrans, OutputSink.advanceTransition, h1, h2, currentTriple, pendingTriple]
  | setProgress p =>
    simp only [commits, Bool.and_eq_true, decide_eq_true_eq, ge_iff_le] at h
    obtain ⟨h1, h2⟩ := h
    simp [applyTrans, OutputSink.setTransitionProgress, h1, h2, currentTriple, pendingTriple]

/-- Helper: a non-committing transition-control call leaves the current triple
exactly unchanged. -/
theorem applyTrans_skip (s : OutputSink) (op : TransOp) (h : commits s op = false) :
    currentTriple (applyTrans s op) = currentTriple s := by
  cases op with
  | advance =>
    by_cases hp : s.transition_in_progress = true
    · have h2 : ¬ (1 : ℚ) ≤ s.transition_progress + 1 / s.transition_duration_frames := by
        simpa [commits, hp] using h
      rw [one_div] at h2
      simp [applyTrans, OutputSink.advanceTransition, hp, h2, currentTriple]
    · have hp' : s.transition_in_progress = false := by
        simpa using hp
      simp [applyTrans, OutputSink.advanceTransition, hp', currentTriple]
  | setProgress p =>
    by_cases hp : s.transition_in_progress = true
    · have h2 : ¬ (1 : ℚ) ≤ max 0 (min 1 p) := by
        simpa [commits, hp] using h
      simp [applyTrans, OutputSink.setTransitionProgress, hp, h2, currentTriple]
    · have hp' : s.transition_in_progress = false := by
        simpa using hp
      simp [applyTrans, OutputSink.setTransitionProgress, hp', currentTriple]

/-- Helper: every step of a run either commits atomically or preserves the triple. -/
theorem tripleAtomic_always (s : OutputSink) (l : List TransOp) :
    tripleAtomic s l = true := by
  induction l generalizing s with
  | nil => rfl
  | cons op l ih =>
    simp only [tripleAtomic, Bool.and_eq_true]
    refine ⟨?_, ih _⟩
    cases hc : commits s op
    · simp [applyTrans_skip s op hc]
    · simp [applyTrans_commit s op hc]

/-- Helper: in a run with no committing call, no decomposition exhibits one. -/
theorem commits_of_count_zero (pre : List TransOp) :
    ∀ (s : OutputSink) (op : TransOp) (post : List TransOp),
      commitCount s (pre ++ op :: post) = 0 → commits (runTrans s pre) op = false := by
  induction pre with
  | nil =>
    intro s op post h
    simp only [List.nil_append, commitCount] at h
    cases hc : commits s op
    · exact hc
    · rw [hc] at h
      simp at h
  | cons a pre ih =>
    intro s op post h
    simp only [List.cons_append, commitCount] at h
    have h0 : commitCount (applyTrans s a) (pre ++ op :: post) = 0 := by
      cases hc : commits s a
      · rw [hc] at h
        simpa using h
      · rw [hc] at h
        simp at h
    simpa [runTrans] using ih (applyTrans s a) op post h0

/-- Helper: a run whose commit count is 1 has exactly one committing position. -/
theorem exists_unique_commit (l : List TransOp) :
    ∀ s : OutputSink, commitCount s l = 1 →
      ∃ pre op post, l = pre ++ op :: post ∧ commits (runTrans s pre) op = true ∧
        ∀ pre' op' post', l = pre' ++ op' :: post' → pre'.length ≠ pre.length →
          commits (runTrans s pre') op' = false := by
  induction l with
  | nil =>
    intro s h
    simp [commitCount] at h
  | cons a l ih =>
    intro s h
    simp only [commitCount] at h
    cases hc : commits s a with
    | true =>
      rw [hc] at h
      simp at h
      have h0 : commitCount (applyTrans s a) l = 0 := h
      refine ⟨[], a, l, rfl, by simpa [runTrans] using hc, ?_⟩
      intro pre' op' post' heq hne
      cases pre' with
      | nil => simp at hne
      | cons b pre'' =>
        simp only [List.cons_append, List.cons.injEq] at heq
        obtain ⟨hb, hl⟩ := heq
        subst hb
        have := commits_of_count_zero pre'' (applyTrans s a) op' post' (hl ▸ h0)
        simpa [runTrans] using this
    | false =>
      rw [hc] at h
      simp at h
      obtain ⟨pre, op, post, heq, hcom, huni⟩ := ih (applyTrans s a) h
      refine ⟨a :: pre, op, post, by rw [List.cons_append, heq], ?_, ?_⟩
      · simpa [runTrans] using hcom
      · intro pre' op' post' heq' hne
        cases pre' with
        | nil =>
          simp only [List.nil_append, List.cons.injEq] at heq'
          obtain ⟨hb, _⟩ := heq'
          subst hb
          simpa [runTrans] using hc
        | cons b pre'' =>
          simp only [List.cons_append, List.cons.injEq] at heq'
          obtain ⟨hb, hl⟩ := heq'
          subst hb
          have hne'' : pre''.length ≠ pre.length := by
            simpa using hne
          simpa [runTrans] using huni pre'' op' post' hl hne''

/-- C1: over any sequence of advanceTransition and setTransitionProgress calls on a
Transitioning sink (with a positive duration, the region where the rational model
matches the code) in which progress reaches 1 or more exactly once, every call
either leaves the (current input, current crop, current edge-blend) triple exactly
unchanged or - at the unique committing call - replaces all three components
together by the pending triple of the state just before that call. -/
theorem C1_triple_commits_once (s : OutputSink) (ops : List TransOp)
    (_hT : s.transition_in_progress = true)
    (_hdur : 0 < s.transition_duration_frames)
    (h1 : commitCount s ops = 1) :
    tripleAtomic s ops = true ∧
    ∃ pre op post, ops = pre ++ op :: post ∧ commits (runTrans s pre) op = true ∧
      currentTriple (applyTrans (runTrans s pre) op) = pendingTriple (runTrans s pre) ∧
      ∀ pre' op' post', ops = pre' ++ op' :: post' → pre'.length ≠ pre.length →
        commits (runTrans s pre') op' = false ∧
        currentTriple (applyTrans (runTrans s pre') op') = currentTriple (runTrans s pre') := by
  refine ⟨tripleAtomic_always s ops, ?_⟩
  obtain ⟨pre, op, post, heq, hcom, huni⟩ := exists_unique_commit ops s h1
  refine ⟨pre, op, post, heq, hcom, applyTrans_commit _ _ hcom, ?_⟩
  intro pre' op' post' heq' hne
  have hskip := huni pre' op' post' heq' hne
  exact ⟨hskip, applyTrans_skip _ _ hskip⟩

/-- C1 witness: a single T-bar push to 1 on a running 10-frame dissolve. -/
theorem C1_witness : tripleAtomic dissolveSink [TransOp.setProgress 1] = true :=
  (C1_triple_commits_once dissolveSink [TransOp.setProgress 1] rfl (by decide) (by decide)).1

/-- Helper: the constructed pool satisfies the dimension invariant. -/
theorem PoolInv_mkPool (w h n : ℕ) : TexturePool.PoolInv (TexturePool.mkPool w h n) := by
  intro tex htex
  simp only [TexturePool.mkPool, List.mem_map, List.mem_range] at htex
  obtain ⟨i, _, rfl⟩ := htex
  exact ⟨rfl, rfl⟩

/-- Helper: release preserves the dimension invariant. -/
theorem PoolInv_release (p : TexturePool) (tex : MTLTexture)
    (hInv : TexturePool.PoolInv p) : TexturePool.PoolInv (p.release tex) := by
  unfold TexturePool.release
  split_ifs with hd
  · intro t ht
    simp only [List.mem_append, List.mem_singleton] at ht
    rcases ht with ht | rfl
    · exact hInv t ht
    · exact hd
  · exact hInv

/-- Helper: acquire preserves the dimension invariant. -/
theorem PoolInv_acquire (p : TexturePool) (hInv : TexturePool.PoolInv p) :
    TexturePool.PoolInv p.acquire.2.1 := by
  unfold TexturePool.acquire
  cases hl : p.available.getLast? with
  | some tex =>
    intro t ht
    exact hInv t (List.dropLast_sublist _ |>.mem ht)
  | none =>
    intro t ht
    exact hInv t ht

/-- Helper: resize preserves the dimension invariant. -/
theorem PoolInv_resize (p : TexturePool) (w h : ℕ) (hInv : TexturePool.PoolInv p) :
    TexturePool.PoolInv (p.resize w h) := by
  unfold TexturePool.resize
  split_ifs with hd
  · exact hInv
  · intro t ht
    simp at ht

/-- C9: under the pool invariant, acquire always returns a texture of the configured
dimensions (whether reused or newly allocated); releasing a matching texture and
acquiring with no resize in between hands back exactly the released texture without
allocating, restoring the pool state; and releasing a texture whose dimensions do
not match the configuration leaves the pool unchanged, so that texture is never
recycled. -/
theorem C9_texture_pool (p : TexturePool) (tex : MTLTexture)
    (hInv : TexturePool.PoolInv p) :
    (p.acquire.1.width = p.width ∧ p.acquire.1.height = p.height) ∧
    (tex.width = p.width → tex.height = p.height →
      (p.release tex).acquire = (tex, p, false)) ∧
    (¬ (tex.width = p.width ∧ tex.height = p.height) → p.release tex = p) := by
  refine ⟨?_, ?_, ?_⟩
  · unfold TexturePool.acquire
    cases hl : p.available.getLast? with
    | some t =>
      exact hInv t (List.mem_of_getLast?_eq_some hl)
    | none =>
      exact ⟨rfl, rfl⟩
  · intro hw hh
    have hrel : p.release tex = { p with available := p.available ++ [tex] } := by
      unfold TexturePool.release
      rw [if_pos ⟨hw, hh⟩]
    rw [hrel]
    unfold TexturePool.acquire
    simp [List.getLast?_concat, List.dropLast_concat]
  · intro hd
    unfold TexturePool.release
    rw [if_neg hd]

/-- C9 witness: release then acquire on a concrete matching pool reuses the freed
texture without allocating. -/
theorem C9_witness :
    ((TexturePool.mkPool 100 100 2).release
        { width := 100, height := 100, tid := 7 }).acquire =
      ({ width := 100, height := 100, tid := 7 }, TexturePool.mkPool 100 100 2, false) :=
  (C9_texture_pool (TexturePool.mkPool 100 100 2) { width := 100, height := 100, tid := 7 }
    (PoolInv_mkPool 100 100 2)).2.1 rfl rfl

/-- Helper: statistics and queue ledger of the modelled NDI sink, for any run. -/
theorem runNDI_ledger (ops : List NDIOp) :
    ∀ s : NDIOutput,
      (runNDI s ops).queue_depth = s.queue_depth ∧
      (runNDI s ops).frames_sent + (runNDI s ops).frames_dropped +
          (runNDI s ops).pixel_queue.length =
        s.frames_sent + s.frames_dropped + s.pixel_queue.length + offeredCount ops ∧
      (s.pixel_queue.length ≤ s.queue_depth →
        (runNDI s ops).pixel_queue.length ≤ s.queue_depth) := by
  induction ops with
  | nil =>
    intro s
    exact ⟨rfl, by simp [runNDI, offeredCount], fun h => h⟩
  | cons op ops ih =>
    intro s
    cases op with
    | push f =>
      by_cases hfull : s.queue_depth ≤ s.pixel_queue.length
      · have hrun : runNDI s (NDIOp.push f :: ops) =
            runNDI { s with frames_dropped := s.frames_dropped + 1 } ops := by
          show runNDI (applyNDI s (NDIOp.push f)) ops = _
          simp [applyNDI, NDIOutput.pushPixelData, hfull]
        obtain ⟨hd, hl, hq⟩ := ih { s with frames_dropped := s.frames_dropped + 1 }
        rw [hrun]
        refine ⟨by simpa using hd, ?_, fun h => by simpa using hq (by simpa using h)⟩
        rw [hl]
        simp [offeredCount]
        omega
      · have hrun : runNDI s (NDIOp.push f :: ops) =
            runNDI { s with pixel_queue := s.pixel_queue ++ [f] } ops := by
          show runNDI (applyNDI s (NDIOp.push f)) ops = _
          simp [applyNDI, NDIOutput.pushPixelData, hfull]
        obtain ⟨hd, hl, hq⟩ := ih { s with pixel_queue := s.pixel_queue ++ [f] }
        rw [hrun]
        refine ⟨by simpa using hd, ?_, fun _ => ?_⟩
        · rw [hl]
          simp [offeredCount]
          omega
        · have := hq (by simp; omega)
          simpa using this
    | send =>
      cases hqueue : s.pixel_queue with
      | nil =>
        have hrun : runNDI s (NDIOp.send :: ops) = runNDI s ops := by
          show runNDI (applyNDI s NDIOp.send) ops = _
          simp [applyNDI, NDIOutput.sendOne, hqueue]
        obtain ⟨hd, hl, hq⟩ := ih s
        rw [hrun]
        refine ⟨hd, ?_, fun _ => hq (by simp [hqueue])⟩
        rw [hl, hqueue]
        simp [offeredCount]
      | cons f rest =>
        have hrun : runNDI s (NDIOp.send :: ops) =
            runNDI { s with pixel_queue := rest, frames_sent := s.frames_sent + 1 } ops := by
          show runNDI (applyNDI s NDIOp.send) ops = _
          simp [applyNDI, NDIOutput.sendOne, hqueue]
        obtain ⟨hd, hl, hq⟩ := ih { s with pixel_queue := rest, frames_sent := s.frames_sent + 1 }
        rw [hrun]
        refine ⟨by simpa using hd, ?_, fun h => ?_⟩
        · rw [hl]
          simp [offeredCount]
          omega
        · have hlen : rest.length ≤ s.queue_depth := by
            simp at h
            omega
          simpa using hq (by simpa using hlen)

/-- C5 counterexample: with a stalled sender, a single pushed frame sits in the
queue, neither sent nor dropped, so framesSent + framesDropped does not equal the
number of frames offered at that moment - the claimed equality fails while frames
are queued. -/
theorem C5_counterexample :
    ¬ ((runNDI (NDIOutput.mkNDI 5) [NDIOp.push 1]).frames_sent +
         (runNDI (NDIOutput.mkNDI 5) [NDIOp.push 1]).frames_dropped =
       offeredCount [NDIOp.push 1]) := by
  decide

/-- C5 (amended, modelled from the spec): for every run of pushes and sends from a
freshly configured sink of depth Q, the queue never exceeds Q; a push when full
rejects exactly the newly pushed frame - the queued entries are untouched and the
drop is counted; at all times framesSent + framesDropped + (frames still queued)
equals the total offered, and once the queue is drained framesSent + framesDropped
equals the total offered. -/
theorem C5_backpressure (q : ℕ) (ops : List NDIOp) :
    (runNDI (NDIOutput.mkNDI q) ops).pixel_queue.length ≤ q ∧
    (runNDI (NDIOutput.mkNDI q) ops).frames_sent +
        (runNDI (NDIOutput.mkNDI q) ops).frames_dropped +
        (runNDI (NDIOutput.mkNDI q) ops).pixel_queue.length = offeredCount ops ∧
    ((runNDI (NDIOutput.mkNDI q) ops).pixel_queue = [] →
      (runNDI (NDIOutput.mkNDI q) ops).frames_sent +
          (runNDI (NDIOutput.mkNDI q) ops).frames_dropped = offeredCount ops) ∧
    (∀ (s : NDIOutput) (f : ℕ), s.queue_depth ≤ s.pixel_queue.length →
      s.pushPixelData f = ({ s with frames_dropped := s.frames_dropped + 1 }, false)) := by
  obtain ⟨hd, hl, hq⟩ := runNDI_ledger ops (NDIOutput.mkNDI q)
  refine ⟨?_, ?_, ?_, ?_⟩
  · simpa [NDIOutput.mkNDI] using hq (by simp [NDIOutput.mkNDI])
  · simpa [NDIOutput.mkNDI] using hl
  · intro hempty
    have := hl
    rw [hempty] at this
    simpa [NDIOutput.mkNDI] using this
  · intro s f hfull
    simp [NDIOutput.pushPixelData, hfull]

/-- C5 witness: depth 1, two pushes against a stalled sender then one send; the
second push is dropped and, once drained, sent + dropped equals the two offers. -/
theorem C5_witness :
    (runNDI (NDIOutput.mkNDI 1) [NDIOp.push 5, NDIOp.push 6, NDIOp.send]).frames_sent +
      (runNDI (NDIOutput.mkNDI 1) [NDIOp.push 5, NDIOp.push 6, NDIOp.send]).frames_dropped =
      offeredCount [NDIOp.push 5, NDIOp.push 6, NDIOp.send] :=
  (C5_backpressure 1 [NDIOp.push 5, NDIOp.push 6, NDIOp.send]).2.2.1 rfl

/-- Helper: adding distinct offsets below the modulus to a common base yields
distinct residues. -/
theorem add_mod_inj (c r i j : ℕ) (hi : i < c) (hj : j < c)
    (h : (r + i) % c = (r + j) % c) : i = j := by
  have hc : 0 < c := Nat.lt_of_le_of_lt (Nat.zero_le i) hi
  have e1 : (r + i) % c = (r % c + i) % c := by
    rw [Nat.add_mod, Nat.mod_eq_of_lt hi]
  have e2 : (r + j) % c = (r % c + j) % c := by
    rw [Nat.add_mod, Nat.mod_eq_of_lt hj]
  rw [e1, e2] at h
  have hm : r % c < c := Nat.mod_lt r hc
  rcases Nat.lt_or_ge (r % c + i) c with h1 | h1 <;>
    rcases Nat.lt_or_ge (r % c + j) c with h2 | h2
  · rw [Nat.mod_eq_of_lt h1, Nat.mod_eq_of_lt h2] at h
    omega
  · rw [Nat.mod_eq_of_lt h1, Nat.mod_eq_sub_mod h2,
      Nat.mod_eq_of_lt (show r % c + j - c < c by omega)] at h
    omega
  · rw [Nat.mod_eq_sub_mod h1, Nat.mod_eq_of_lt (show r % c + i - c < c by omega),
      Nat.mod_eq_of_lt h2] at h
    omega
  · rw [Nat.mod_eq_sub_mod h1, Nat.mod_eq_sub_mod h2,
      Nat.mod_eq_of_lt (show r % c + i - c < c by omega),
      Nat.mod_eq_of_lt (show r % c + j - c < c by omega)] at h
    omega

/-- Helper: reading the slot just written. -/
theorem getD_set_self (l : List ℕ) (i a : ℕ) (h : i < l.length) :
    (l.set i a).getD i 0 = a := by
  simp [List.getD_eq_getElem?_getD, List.getElem?_set_self h]

/-- Helper: reading a slot other than the one just written. -/
theorem getD_set_ne (l : List ℕ) (i j a : ℕ) (h : i ≠ j) :
    (l.set i a).getD j 0 = l.getD j 0 := by
  simp [List.getD_eq_getElem?_getD, List.getElem?_set_ne h]

/-- Helper: the abstraction has exactly count entries. -/
theorem absList_length (rb : FrameRingBuffer) :
    (FrameRingBuffer.absList rb).length = rb.count := by
  simp [FrameRingBuffer.absList]

/-- Helper: a fresh buffer of positive capacity satisfies the invariant and
represents the empty queue. -/
theorem Inv_mkBuffer (c : ℕ) (hc : 0 < c) :
    FrameRingBuffer.Inv (FrameRingBuffer.mkBuffer c) ∧
    FrameRingBuffer.absList (FrameRingBuffer.mkBuffer c) = [] := by
  refine ⟨⟨by simp [FrameRingBuffer.mkBuffer], by simp [FrameRingBuffer.mkBuffer],
    by simpa [FrameRingBuffer.mkBuffer] using hc, by simp [FrameRingBuffer.mkBuffer], hc⟩, ?_⟩
  simp [FrameRingBuffer.absList, FrameRingBuffer.mkBuffer]

/-- Helper: push preserves the ring buffer invariant. -/
theorem Inv_push (rb : FrameRingBuffer) (f : ℕ) (h : FrameRingBuffer.Inv rb) :
    FrameRingBuffer.Inv (rb.push f) := by
  obtain ⟨hlen, hcnt, hr, hw, hc⟩ := h
  unfold FrameRingBuffer.push
  by_cases hfull : rb.count < rb.capacity
  · rw [if_pos hfull]
    refine ⟨by simpa using hlen, hfull, hr, ?_, hc⟩
    show (rb.write_idx + 1) % rb.capacity = (rb.read_idx + (rb.count + 1)) % rb.capacity
    rw [hw, Nat.mod_add_mod, Nat.add_assoc]
  · rw [if_neg hfull]
    have hcount : rb.count = rb.capacity := Nat.le_antisymm hcnt (Nat.le_of_not_lt hfull)
    refine ⟨by simpa using hlen, hcnt, Nat.mod_lt _ hc, ?_, hc⟩
    show (rb.write_idx + 1) % rb.capacity =
      ((rb.read_idx + 1) % rb.capacity + rb.count) % rb.capacity
    rw [hw, Nat.mod_add_mod, Nat.mod_add_mod, hcount]
    have : rb.read_idx + rb.capacity + 1 = rb.read_idx + 1 + rb.capacity := by omega
    rw [this]

/-- Helper: push appends to the represented queue, dropping the oldest entry when
the buffer is full. -/
theorem absList_push (rb : FrameRingBuffer) (f : ℕ) (h : FrameRingBuffer.Inv rb) :
    FrameRingBuffer.absList (rb.push f) =
      if rb.count < rb.capacity then FrameRingBuffer.absList rb ++ [f]
      else (FrameRingBuffer.absList rb).tail ++ [f] := by
  obtain ⟨hlen, hcnt, hr, hw, hc⟩ := h
  by_cases hfull : rb.count < rb.capacity
  · rw [if_pos hfull]
    have hpush : rb.push f =
        { rb with
          frames := rb.frames.set rb.write_idx f,
          write_idx := (rb.write_idx + 1) % rb.capacity,
          count := rb.count + 1 } := by
      unfold FrameRingBuffer.push
      rw [if_pos hfull]
    rw [hpush]
    unfold FrameRingBuffer.absList
    dsimp only
    rw [List.range_succ, List.map_append, List.map_cons, List.map_nil]
    congr 1
    · apply List.map_congr_left
      intro i hi
      simp only [List.mem_range] at hi
      apply getD_set_ne
      rw [hw]
      intro hcontra
      have := add_mod_inj rb.capacity rb.read_idx rb.count i hfull
        (Nat.lt_trans hi hfull) hcontra
      omega
    · have hidx : (rb.read_idx + rb.count) % rb.capacity = rb.write_idx := hw.symm
      rw [hidx, getD_set_self]
      rw [hlen, hw]
      exact Nat.mod_lt _ hc
  · rw [if_neg hfull]
    have hcount : rb.count = rb.capacity := Nat.le_antisymm hcnt (Nat.le_of_not_lt hfull)
    have hwr : rb.write_idx = rb.read_idx := by
      rw [hw, hcount, Nat.add_mod_right, Nat.mod_eq_of_lt hr]
    obtain ⟨k, hk⟩ : ∃ k, rb.capacity = k + 1 := ⟨rb.capacity - 1, by omega⟩
    have hpush : rb.push f =
        { rb with
          frames := rb.frames.set rb.write_idx f,
          write_idx := (rb.write_idx + 1) % rb.capacity,
          read_idx := (rb.read_idx + 1) % rb.capacity } := by
      unfold FrameRingBuffer.push
      rw [if_neg hfull]
    have htail : (List.map (fun i => rb.frames.getD ((rb.read_idx + i) % rb.capacity) 0)
          (List.range rb.count)).tail =
        (List.range k).map
          (fun i => rb.frames.getD ((rb.read_idx + (i + 1)) % rb.capacity) 0) := by
      rw [hcount, hk, List.range_succ_eq_map, List.map_cons, List.tail_cons, List.map_map]
      simp [Function.comp_def, Nat.succ_eq_add_one]
    rw [hpush]
    unfold FrameRingBuffer.absList
    dsimp only
    have hck : rb.count = k + 1 := by omega
    rw [htail, hck, List.range_succ, List.map_append, List.map_cons, List.map_nil]
    congr 1
    · apply List.map_congr_left
      intro i hi
      simp only [List.mem_range] at hi
      have hidx : ((rb.read_idx + 1) % rb.capacity + i) % rb.capacity =
          (rb.read_idx + (1 + i)) % rb.capacity := by
        rw [Nat.mod_add_mod, Nat.add_assoc]
      rw [hidx]
      rw [getD_set_ne]
      · rw [Nat.add_comm 1 i]
      · rw [hwr]
        intro hcontra
        have hcontra' : (rb.read_idx + 0) % rb.capacity =
            (rb.read_idx + (1 + i)) % rb.capacity := by
          rw [Nat.add_zero, Nat.mod_eq_of_lt hr]
          exact hcontra
        have := add_mod_inj rb.capacity rb.read_idx 0 (1 + i)
          (by omega) (by omega) hcontra'
        omega
    · have hidx : ((rb.read_idx + 1) % rb.capacity + k) % rb.capacity = rb.write_idx := by
        rw [Nat.mod_add_mod, hwr]
        have : rb.read_idx + 1 + k = rb.read_idx + rb.capacity := by omega
        rw [this, Nat.add_mod_right, Nat.mod_eq_of_lt hr]
      rw [hidx, getD_set_self]
      rw [hlen, hwr]
      exact hr

/-- Helper: peekLatest returns the most recently pushed entry of the represented
queue. -/
theorem peekLatest_absList (rb : FrameRingBuffer) (h : FrameRingBuffer.Inv rb)
    (hn : rb.count ≠ 0) :
    rb.peekLatest = (FrameRingBuffer.absList rb).getLast? := by
  obtain ⟨hlen, hcnt, hr, hw, hc⟩ := h
  unfold FrameRingBuffer.peekLatest
  rw [if_neg hn]
  obtain ⟨m, hm⟩ : ∃ m, rb.count = m + 1 := ⟨rb.count - 1, by omega⟩
  have hg : (FrameRingBuffer.absList rb).getLast? =
      some (rb.frames.getD ((rb.read_idx + m) % rb.capacity) 0) := by
    unfold FrameRingBuffer.absList
    rw [List.getLast?_eq_getElem?, List.length_map, List.length_range, hm,
      Nat.add_sub_cancel, List.getElem?_map,
      List.getElem?_range (Nat.lt_succ_self m)]
    rfl
  rw [hg]
  congr 1
  rw [hw, hm]
  have h1 : (rb.read_idx + (m + 1)) % rb.capacity + rb.capacity - 1 =
      (rb.read_idx + (m + 1)) % rb.capacity + (rb.capacity - 1) := by omega
  rw [h1, Nat.mod_add_mod]
  have h2 : rb.read_idx + (m + 1) + (rb.capacity - 1) =
      rb.read_idx + m + rb.capacity := by omega
  rw [h2, Nat.add_mod_right]

/-- Helper: pop removes and returns the oldest entry of the represented queue. -/
theorem pop_absList (rb : FrameRingBuffer) (h : FrameRingBuffer.Inv rb)
    (hn : rb.count ≠ 0) :
    ∃ rb', rb.pop = some ((FrameRingBuffer.absList rb).headD 0, rb') ∧
      FrameRingBuffer.Inv rb' ∧
      FrameRingBuffer.absList rb' = (FrameRingBuffer.absList rb).tail ∧
      rb'.count = rb.count - 1 := by
  obtain ⟨hlen, hcnt, hr, hw, hc⟩ := h
  obtain ⟨m, hm⟩ : ∃ m, rb.count = m + 1 := ⟨rb.count - 1, by omega⟩
  refine ⟨{ rb with read_idx := (rb.read_idx + 1) % rb.capacity, count := rb.count - 1 },
    ?_, ?_, ?_, rfl⟩
  · unfold FrameRingBuffer.pop
    rw [if_neg hn]
    congr 2
    unfold FrameRingBuffer.absList
    rw [hm, List.range_succ_eq_map, List.map_cons, List.headD_cons, Nat.add_zero,
      Nat.mod_eq_of_lt hr]
  · refine ⟨hlen, show rb.count - 1 ≤ rb.capacity by omega, Nat.mod_lt _ hc, ?_, hc⟩
    show rb.write_idx = ((rb.read_idx + 1) % rb.capacity + (rb.count - 1)) % rb.capacity
    rw [Nat.mod_add_mod, hw]
    congr 1
    omega
  · unfold FrameRingBuffer.absList
    dsimp only
    rw [hm, Nat.add_sub_cancel, List.range_succ_eq_map, List.map_cons, List.tail_cons,
      List.map_map]
    apply List.map_congr_left
    intro i hi
    simp only [Function.comp_apply, Nat.succ_eq_add_one]
    congr 1
    rw [Nat.mod_add_mod]
    congr 1
    omega

/-- Helper: repeatedly popping a valid buffer returns exactly the represented queue. -/
theorem drainAux_absList (n : ℕ) :
    ∀ rb : FrameRingBuffer, FrameRingBuffer.Inv rb → rb.count = n →
      FrameRingBuffer.drainAux n rb = FrameRingBuffer.absList rb := by
  induction n with
  | zero =>
    intro rb _ h0
    unfold FrameRingBuffer.drainAux FrameRingBuffer.absList
    rw [h0]
    simp
  | succ m ih =>
    intro rb hInv h0
    obtain ⟨rb', hpop, hInv', habs, hcnt'⟩ := pop_absList rb hInv (by omega)
    unfold FrameRingBuffer.drainAux
    rw [hpop]
    show (FrameRingBuffer.absList rb).headD 0 :: FrameRingBuffer.drainAux m rb' =
      FrameRingBuffer.absList rb
    rw [ih rb' hInv' (by omega), habs]
    have hlen : (FrameRingBuffer.absList rb).length = rb.count := absList_length rb
    cases habs0 : FrameRingBuffer.absList rb with
    | nil =>
      rw [habs0] at hlen
      simp at hlen
      omega
    | cons a l =>
      simp [habs0]

/-- Helper: drain returns the represented queue, oldest first. -/
theorem drain_absList (rb : FrameRingBuffer) (h : FrameRingBuffer.Inv rb) :
    FrameRingBuffer.drain rb = FrameRingBuffer.absList rb :=
  drainAux_absList rb.count rb h rfl

/-- Helper: after any sequence of pushes into a fresh buffer of positive capacity,
the invariant holds, the capacity is unchanged, and the buffer represents the last c
pushed frames. -/
theorem pushAll_spec (c : ℕ) (hc : 0 < c) (l : List ℕ) :
    FrameRingBuffer.Inv (FrameRingBuffer.pushAll (FrameRingBuffer.mkBuffer c) l) ∧
    (FrameRingBuffer.pushAll (FrameRingBuffer.mkBuffer c) l).capacity = c ∧
    FrameRingBuffer.absList (FrameRingBuffer.pushAll (FrameRingBuffer.mkBuffer c) l) =
      l.drop (l.length - c) := by
  induction l using List.reverseRecOn with
  | nil =>
    obtain ⟨hInv, habs⟩ := Inv_mkBuffer c hc
    exact ⟨hInv, rfl, by simpa using habs⟩
  | append_singleton l x ih =>
    obtain ⟨hInv, hcap, habs⟩ := ih
    have hstep : FrameRingBuffer.pushAll (FrameRingBuffer.mkBuffer c) (l ++ [x]) =
        (FrameRingBuffer.pushAll (FrameRingBuffer.mkBuffer c) l).push x := by
      unfold FrameRingBuffer.pushAll
      rw [List.foldl_append]
      rfl
    rw [hstep]
    set rb := FrameRingBuffer.pushAll (FrameRingBuffer.mkBuffer c) l with hrb
    have hcount : rb.count = (l.drop (l.length - c)).length := by
      rw [← absList_length rb, habs]
    refine ⟨Inv_push rb x hInv, ?_, ?_⟩
    · unfold FrameRingBuffer.push
      split_ifs <;> simpa using hcap
    · rw [absList_push rb x hInv, habs]
      rw [List.length_drop] at hcount
      by_cases hfull : rb.count < rb.capacity
      · rw [if_pos hfull]
        rw [hcap] at hfull
        have hlc : l.length < c := by omega
        rw [show l.length - c = 0 from by omega, List.drop_zero,
          show (l ++ [x]).length - c = 0 from by simp; omega, List.drop_zero]
      · rw [if_neg hfull]
        rw [hcap] at hfull
        have hlc : c ≤ l.length := by omega
        rw [List.tail_drop, List.drop_append_eq_append_drop,
          show (l ++ [x]).length - c = l.length - c + 1 from by simp; omega,
          show l.length - c + 1 - l.length = 0 from by omega, List.drop_zero]

/-- Helper: the numbered frame sequence is a unit-step range starting at 1, and
dropping all but the last c entries leaves the frames numbered n-c+1 through n. -/
theorem frameSeq_drop (n c : ℕ) (hcn : c ≤ n) :
    (frameSeq n).drop (n - c) = List.range' (n - c + 1) c := by
  have h1 : frameSeq n = List.range' 1 n := by
    unfold frameSeq
    rw [List.range_eq_range']
    rw [show (List.range' 0 n).map (fun i => i + 1) =
        (List.range' 0 n).map (fun i => 1 + i) from
      List.map_congr_left (fun a _ => Nat.add_comm a 1)]
    rw [List.map_add_range']
  have h2 : List.range' 1 (n - c) ++ List.range' (1 + (n - c)) c = List.range' 1 n := by
    rw [List.range'_append_1]
    congr 1
    omega
  rw [h1, ← h2, List.drop_left' (by rw [List.length_range'])]
  congr 1
  omega

/-- C4: pushing frames numbered 1..n into a fresh ring buffer of capacity c keeps
size at most c after every prefix of pushes; and when n exceeds c, peekLatest
returns frame n and successive pops return frames n-c+1 through n in order. -/
theorem C4_ring_buffer (c n : ℕ) (hc : 0 < c) (hcn : c < n) :
    (∀ i : ℕ,
      FrameRingBuffer.size
        (FrameRingBuffer.pushAll (FrameRingBuffer.mkBuffer c) ((frameSeq n).take i)) ≤ c) ∧
    FrameRingBuffer.peekLatest
        (FrameRingBuffer.pushAll (FrameRingBuffer.mkBuffer c) (frameSeq n)) = some n ∧
    FrameRingBuffer.drain
        (FrameRingBuffer.pushAll (FrameRingBuffer.mkBuffer c) (frameSeq n)) =
      List.range' (n - c + 1) c := by
  have hlenseq : (frameSeq n).length = n := by
    simp [frameSeq]
  obtain ⟨hInv, hcap, habs⟩ := pushAll_spec c hc (frameSeq n)
  rw [hlenseq, frameSeq_drop n c (Nat.le_of_lt hcn)] at habs
  have hcount : (FrameRingBuffer.pushAll (FrameRingBuffer.mkBuffer c) (frameSeq n)).count = c := by
    rw [← absList_length _, habs, List.length_range']
  refine ⟨?_, ?_, ?_⟩
  · intro i
    obtain ⟨⟨_, hcnt, _, _, _⟩, hcap', _⟩ := pushAll_spec c hc ((frameSeq n).take i)
    unfold FrameRingBuffer.size
    rw [hcap'] at hcnt
    exact hcnt
  · rw [peekLatest_absList _ hInv (by omega), habs]
    obtain ⟨k, hk⟩ : ∃ k, c = k + 1 := ⟨c - 1, by omega⟩
    rw [hk, List.getLast?_eq_getElem?, List.length_range', Nat.add_sub_cancel,
      List.getElem?_range' _ _ (Nat.lt_succ_self k)]
    congr 1
    omega
  · rw [drain_absList _ hInv, habs]

/-- C4 witness: capacity 3, frames 1..5 - the spec scenario - evaluated: size stays
at 3, peekLatest is frame 5 and the pops return frames 3, 4, 5. -/
theorem C4_witness :
    FrameRingBuffer.size
        (FrameRingBuffer.pushAll (FrameRingBuffer.mkBuffer 3) ((frameSeq 5).take 4)) ≤ 3 ∧
    FrameRingBuffer.peekLatest
        (FrameRingBuffer.pushAll (FrameRingBuffer.mkBuffer 3) (frameSeq 5)) = some 5 ∧
    FrameRingBuffer.drain
        (FrameRingBuffer.pushAll (FrameRingBuffer.mkBuffer 3) (frameSeq 5)) =
      List.range' 3 3 :=
  ⟨(C4_ring_buffer 3 5 (by decide) (by decide)).1 4,
   (C4_ring_buffer 3 5 (by decide) (by decide)).2.1,
   (C4_ring_buffer 3 5 (by decide) (by decide)).2.2⟩

end RocKontrol
